import Mathlib

/-!
Verification development for the Zscaler URL-filtering automation script
(`zscaler_url_automation.py`).  The Python code is shallowly embedded:

* a URL-filtering rule is a record of the fields the script reads
  (`id`, `name`, `action`, `state`, `order`, `urlCategories`);
* every remote (SDK) interaction an operation performs is recorded in an
  explicit trace of `ApiCall` values, so "no write call is issued" becomes
  a statement about the trace;
* the outcome of a remote call (the `error` component of the SDK's
  `(data, response, error)` tuple) is a parameter of type `Option String`;
* operations return the `Bool` the Python function returns, paired with
  the trace of calls it issued.

Components the specification describes but the script does not contain
(the dry-run reconciliation engine and the retrying transport) are
modelled from the specification text and marked as such.
-/

/-- A URL-filtering rule, with the fields the script reads from the SDK
response (`id`, `name`, `action`, `state`, `order`, `urlCategories`). -/
structure Rule where
  id : Nat
  name : String
  action : String
  state : String
  order : Nat
  urlCategories : List String
deriving DecidableEq, Repr

/-- A custom URL category, with the fields `_get_or_create_block_category`
reads (`id`, `configuredName`, `customCategory`). -/
structure Category where
  id : String
  configuredName : String
  customCategory : Bool
deriving DecidableEq, Repr

/-- One remote (SDK) call issued by an operation.  Write calls carry the
exact keyword arguments the Python call site passes. -/
inductive ApiCall where
  | listRules
  | updateRuleCategories (rule_id : Nat) (url_categories : List String)
  | updateRuleAction (rule_id : Nat) (action : String)
  | listCategories
  | addUrlCategory (configured_name : String)
  | addUrlsToCategory (category_id : String) (urls : List String)
  | getCategory (category_id : String)
  | updateUrlCategory (category_id : String) (urls : List String)
deriving DecidableEq, Repr

/-- `get_rule_by_name`: scan the listed rules in order and return the first
whose `name` equals the supplied identifier or whose `id`, as a string,
equals it; `None` when no rule matches (lines 288-305 of the script). -/
def get_rule_by_name (rules : List Rule) (rule_name : String) : Option Rule :=
  rules.find? (fun r => r.name == rule_name || toString r.id == rule_name)

/-- `add_category_to_rule`: fetch the rule, short-circuit with success when
the category is already in its `urlCategories`, otherwise update the rule
with the appended list (lines 311-344).  `rules` is the remote listing,
`updErr` the error component of the update call's result. -/
def add_category_to_rule (rules : List Rule) (updErr : Option String)
    (rule_name category_id : String) : Bool × List ApiCall :=
  match get_rule_by_name rules rule_name with
  | none => (false, [ApiCall.listRules])
  | some rule =>
    if category_id ∈ rule.urlCategories then
      (true, [ApiCall.listRules])
    else
      let new_categories := rule.urlCategories ++ [category_id]
      match updErr with
      | some _ => (false, [ApiCall.listRules,
          ApiCall.updateRuleCategories rule.id new_categories])
      | none => (true, [ApiCall.listRules,
          ApiCall.updateRuleCategories rule.id new_categories])

/-- `_add_category_to_rule` (lines 528-563): same read-check-update logic as
`add_category_to_rule`, reached from `block_url_in_rule`. -/
def add_category_to_rule_internal (rules : List Rule) (updErr : Option String)
    (rule_name category_id : String) : Bool × List ApiCall :=
  match get_rule_by_name rules rule_name with
  | none => (false, [ApiCall.listRules])
  | some rule =>
    if category_id ∈ rule.urlCategories then
      (true, [ApiCall.listRules])
    else
      let new_categories := rule.urlCategories ++ [category_id]
      match updErr with
      | some _ => (false, [ApiCall.listRules,
          ApiCall.updateRuleCategories rule.id new_categories])
      | none => (true, [ApiCall.listRules,
          ApiCall.updateRuleCategories rule.id new_categories])

/-- Python's `str.upper()` (ASCII), over the string's character list. -/
def str_upper (s : String) : String := ⟨s.data.map Char.toUpper⟩

/-- Python's `str.lower()` (ASCII), over the string's character list. -/
def str_lower (s : String) : String := ⟨s.data.map Char.toLower⟩

/-- `chars_start_with hay needle`: `needle` is a prefix of `hay`. -/
def chars_start_with : List Char → List Char → Bool
  | _, [] => true
  | [], _ :: _ => false
  | a :: as, b :: bs => a == b && chars_start_with as bs

/-- `chars_contain hay needle`: `needle` occurs contiguously in `hay`. -/
def chars_contain : List Char → List Char → Bool
  | [], needle => needle.isEmpty
  | a :: t, needle => chars_start_with (a :: t) needle || chars_contain t needle

/-- Python's substring test `needle in hay`. -/
def strContains (hay needle : String) : Bool :=
  chars_contain hay.data needle.data

/-- The result check at lines 511-517: an error whose text contains
"already exists" (after lowercasing) is success; any other error is
failure; no error is success. -/
def handle_add_url_result (err : Option String) (calls : List ApiCall) :
    Bool × List ApiCall :=
  match err with
  | some e =>
    if strContains (str_lower e) ("already exists") then (true, calls)
    else (false, calls)
  | none => (true, calls)

/-- `_add_url_to_category` (lines 465-526).  `method1_ok` says whether the
SDK exposes `add_urls_to_category` (method 1); otherwise the fallback
fetches the category, skips the update when the URL is already in its
`urls` (exact string comparison, line 498), else writes the appended
list.  `current_urls` is the fetched category's `urls`; `resErr` the error
component of whichever write ran. -/
def add_url_to_category (method1_ok : Bool) (current_urls : List String)
    (resErr : Option String) (category_id url : String) : Bool × List ApiCall :=
  if method1_ok then
    handle_add_url_result resErr [ApiCall.addUrlsToCategory category_id [url]]
  else
    if url ∉ current_urls then
      let new_urls := current_urls ++ [url]
      handle_add_url_result resErr
        [ApiCall.getCategory category_id,
         ApiCall.updateUrlCategory category_id new_urls]
    else
      (true, [ApiCall.getCategory category_id])

/-- First-match characterisation of `List.find?`. -/
theorem find_first {α : Type} (p : α → Bool) :
    ∀ (l : List α) (a : α), l.find? p = some a →
      p a = true ∧ ∃ l1 l2, l = l1 ++ a :: l2 ∧ ∀ x ∈ l1, p x = false := by
  intro l
  induction l with
  | nil => intro a h; simp [List.find?] at h
  | cons b t ih =>
    intro a h
    by_cases hb : p b = true
    · rw [List.find?_cons_of_pos _ hb] at h
      cases h
      exact ⟨hb, [], t, rfl, by simp⟩
    · rw [List.find?_cons_of_neg _ (by simpa using hb)] at h
      obtain ⟨hpa, l1, l2, heq, hall⟩ := ih a h
      refine ⟨hpa, b :: l1, l2, by simp [heq], ?_⟩
      intro x hx
      rcases List.mem_cons.mp hx with hxb | hxl
      · subst hxb; simpa using hb
      · exact hall x hxl

/-- The valid rule actions checked by `update_rule_action` (line 569). -/
def valid_actions : List String := ["ALLOW", "BLOCK", "CAUTION", "ISOLATE"]

/-- `update_rule_action` (lines 565-596): reject an action whose uppercase
form is not in `valid_actions` before any SDK call; otherwise fetch the
rule and update its action. -/
def update_rule_action (rules : List Rule) (updErr : Option String)
    (rule_name action : String) : Bool × List ApiCall :=
  if valid_actions.contains (str_upper action) = false then
    (false, [])
  else
    match get_rule_by_name rules rule_name with
    | none => (false, [ApiCall.listRules])
    | some rule =>
      match updErr with
      | some _ => (false, [ApiCall.listRules,
          ApiCall.updateRuleAction rule.id (str_upper action)])
      | none => (true, [ApiCall.listRules,
          ApiCall.updateRuleAction rule.id (str_upper action)])

/-- An SDK result carrying a list payload: either the three-element tuple
`(data, response, error)` or the data directly; `none` models a missing
(falsy) payload. -/
inductive SdkListResult (α : Type) where
  | tup (data : Option (List α)) (err : Option String)
  | direct (data : Option (List α))
deriving DecidableEq

/-- An SDK result carrying a single object. -/
inductive SdkItemResult (α : Type) where
  | tup (data : Option α) (err : Option String)
  | direct (data : Option α)
deriving DecidableEq

/-- The extraction at lines 396-400: take the tuple's first element or the
direct value; a missing or empty (falsy) payload becomes `[]`. -/
def extract_categories {α : Type} : SdkListResult α → List α
  | SdkListResult.tup data _ =>
    match data with
    | none => []
    | some l => l
  | SdkListResult.direct data =>
    match data with
    | none => []
    | some l => l

/-- A list payload that cannot be parsed into a usable list shape: missing
(`None`) or empty. -/
def unusable_list {α : Type} : SdkListResult α → Prop
  | SdkListResult.tup data _ => data = none ∨ data = some []
  | SdkListResult.direct data => data = none ∨ data = some []

/-- `_get_or_create_block_category` (lines 377-463): list the categories,
return the id of the first whose `configuredName` matches, otherwise
create a new category and return its id (`none` = failure).
`listResult` is the `list_categories` response and `createResult` the
`add_url_category` response. -/
def get_or_create_block_category (listResult : SdkListResult Category)
    (createResult : SdkItemResult Category) (category_name : String) :
    Option String × List ApiCall :=
  let categories := extract_categories listResult
  match categories.find? (fun cat => cat.configuredName == category_name) with
  | some cat => (some cat.id, [ApiCall.listCategories])
  | none =>
    let calls := [ApiCall.listCategories, ApiCall.addUrlCategory category_name]
    match createResult with
    | SdkItemResult.tup data err =>
      match err with
      | some _ => (none, calls)
      | none =>
        match data with
        | none => (none, calls)
        | some c => (some c.id, calls)
    | SdkItemResult.direct data =>
      match data with
      | none => (none, calls)
      | some c => (some c.id, calls)

/-- A field value of a rule object or of an update payload. -/
inductive FieldVal where
  | natVal (n : Nat)
  | strVal (s : String)
  | listVal (l : List String)
deriving DecidableEq, Repr

/-- The named fields of a fetched rule (the carrier object). -/
def carrier_fields (r : Rule) : List (String × FieldVal) :=
  [("id", FieldVal.natVal r.id),
   ("name", FieldVal.strVal r.name),
   ("action", FieldVal.strVal r.action),
   ("state", FieldVal.strVal r.state),
   ("order", FieldVal.natVal r.order),
   ("urlCategories", FieldVal.listVal r.urlCategories)]

/-- The named fields of the update actually submitted by
`update_rule(rule_id=..., url_categories=...)` (lines 333 and 552): only
the two keyword arguments passed at the call site. -/
def submitted_update_fields (rule_id : Nat) (url_categories : List String) :
    List (String × FieldVal) :=
  [("rule_id", FieldVal.natVal rule_id),
   ("url_categories", FieldVal.listVal url_categories)]

/-- Modelled from the spec: `case_fold` — lowercasing used solely for
comparison (spec glossary); the script contains no reconciliation engine,
only the specification describes one. -/
def case_fold (s : String) : String := str_lower s

/-- Modelled from the spec: step 2 of the Reconciler —
`added = [u for u in desired if case_fold(u) not in case_fold_set(existing)]`,
preserving desired's order (spec section 4.4). -/
def compute_added (desired existing : List String) : List String :=
  desired.filter (fun u => !((existing.map case_fold).contains (case_fold u)))

/-- Modelled from the spec: the outcome record of one reconciliation call
(spec section 3, ReconciliationResult). -/
structure ReconciliationResult where
  status : String
  existing_count : Nat
  added : List String
  final_count : Nat
deriving DecidableEq, Repr

/-- Modelled from the spec: a write call issued through UpdateWriter. -/
inductive WriteCall where
  | update (payload : List String)
deriving DecidableEq

/-- Modelled from the spec: the Reconciler of spec section 4.4 — fetch the
existing list (`none` = fetch failure), diff, short-circuit on an empty
diff, honour dry-run without writing, otherwise write the merged list
(`writeOk` says whether the write succeeds).  The script does not contain
this engine; the definition follows the spec's five steps. -/
def reconcile (fetched : Option (List String)) (desired : List String)
    (dryRun : Bool) (writeOk : Bool) : ReconciliationResult × List WriteCall :=
  match fetched with
  | none => (⟨"error", 0, [], 0⟩, [])
  | some existing =>
    let added := compute_added desired existing
    if added.isEmpty then
      (⟨"no_change", existing.length, [], existing.length⟩, [])
    else if dryRun then
      (⟨"dry_run", existing.length, added, existing.length + added.length⟩, [])
    else
      let merged := existing ++ added
      if writeOk then
        (⟨"updated", existing.length, added, existing.length + added.length⟩,
         [WriteCall.update merged])
      else
        (⟨"error", existing.length, added, existing.length + added.length⟩,
         [WriteCall.update merged])

/-- Modelled from the spec: the Transport retry loop of spec section 4.2 —
`fails k` says whether attempt `k` (1-based) fails at the transport level;
on a failure with attempts remaining, sleep `base ^ attempt` seconds and
retry.  Returns (success, attempts made, sleeps performed).  The script
does not contain this layer; the definition follows the spec's algorithm. -/
def transport_go (fails : Nat → Bool) (base : Nat) :
    Nat → Nat → Bool × Nat × List Nat
  | _, 0 => (false, 0, [])
  | attempt, remaining + 1 =>
    if fails attempt then
      if remaining = 0 then (false, 1, [])
      else
        let r := transport_go fails base (attempt + 1) remaining
        (r.1, r.2.1 + 1, base ^ attempt :: r.2.2)
    else (true, 1, [])

/-- Modelled from the spec: one logical Transport call with `maxAttempts`
attempts and exponential backoff base `base`, starting at attempt 1. -/
def transport_call (fails : Nat → Bool) (base maxAttempts : Nat) :
    Bool × Nat × List Nat :=
  transport_go fails base 1 maxAttempts

/-- A concrete rule used to instantiate theorems on concrete inputs. -/
def demo_rule : Rule :=
  { id := 1, name := "Sample Rule", action := "BLOCK", state := "ENABLED",
    order := 1, urlCategories := ["CAT_A"] }

/-- C1: for every rule and every category identifier already present in
that rule's current category list, `add_category_to_rule` and
`_add_category_to_rule` return success with only the read call in the
trace — no update (write) call is issued, so repeating the operation is a
true no-op. -/
theorem add_category_already_present_noop (rules : List Rule)
    (updErr : Option String) (rule_name category_id : String) (rule : Rule)
    (h1 : get_rule_by_name rules rule_name = some rule)
    (h2 : category_id ∈ rule.urlCategories) :
    add_category_to_rule rules updErr rule_name category_id
      = (true, [ApiCall.listRules])
    ∧ add_category_to_rule_internal rules updErr rule_name category_id
      = (true, [ApiCall.listRules]) := by
  constructor
  · simp [add_category_to_rule, h1, h2]
  · simp [add_category_to_rule_internal, h1, h2]

/-- Witness for C1 at a concrete rule list and category. -/
theorem add_category_already_present_noop_witness :
    add_category_to_rule [demo_rule] none ("Sample Rule") ("CAT_A")
      = (true, [ApiCall.listRules])
    ∧ add_category_to_rule_internal [demo_rule] none ("Sample Rule") ("CAT_A")
      = (true, [ApiCall.listRules]) :=
  add_category_already_present_noop [demo_rule] none ("Sample Rule") ("CAT_A")
    demo_rule (by decide) (by decide)

/-- C2 (counterexample): with `urls = ["x.com"]` in the category, adding
`"X.com"` — the same logical URL in different casing — is NOT detected as
already present: the code issues an update write whose payload contains
both casings, i.e. a case-insensitive duplicate is added. -/
theorem add_url_case_variant_duplicate :
    add_url_to_category false (["x.com"]) none ("CAT1") ("X.com")
      = (true, [ApiCall.getCategory ("CAT1"),
                ApiCall.updateUrlCategory ("CAT1") (["x.com", "X.com"])])
    ∧ case_fold ("X.com") = case_fold ("x.com") := by
  constructor
  · rfl
  · rfl

/-- C2 (amended): the membership test at line 498 is exact (case-sensitive)
string comparison — a URL already present with identical casing is not
re-added (success, no update write); a URL differing only in casing is
treated as absent and appended. -/
theorem add_url_exact_membership (current_urls : List String)
    (resErr : Option String) (category_id url : String)
    (h : url ∈ current_urls) :
    add_url_to_category false current_urls resErr category_id url
      = (true, [ApiCall.getCategory category_id]) := by
  simp [add_url_to_category, h]

/-- Witness for the amended C2 at a concrete category state. -/
theorem add_url_exact_membership_witness :
    add_url_to_category false (["x.com"]) none ("CAT1") ("x.com")
      = (true, [ApiCall.getCategory ("CAT1")]) :=
  add_url_exact_membership (["x.com"]) none ("CAT1") ("x.com") (by decide)

/-- C5: whenever an update that adds a new entry is issued — a category
added to a rule, or a URL added to a category — the written payload is the
existing entries first, in their current order, with the new entry
appended at the end. -/
theorem update_payload_is_append (rules : List Rule) (updErr : Option String)
    (rule_name category_id : String) (rule : Rule)
    (current_urls : List String) (resErr : Option String)
    (cat_id url : String)
    (h1 : get_rule_by_name rules rule_name = some rule)
    (h2 : category_id ∉ rule.urlCategories)
    (h3 : url ∉ current_urls) :
    (add_category_to_rule rules updErr rule_name category_id).2
      = [ApiCall.listRules,
         ApiCall.updateRuleCategories rule.id (rule.urlCategories ++ [category_id])]
    ∧ (add_url_to_category false current_urls resErr cat_id url).2
      = [ApiCall.getCategory cat_id,
         ApiCall.updateUrlCategory cat_id (current_urls ++ [url])] := by
  constructor
  · cases updErr <;> simp [add_category_to_rule, h1, h2]
  · cases resErr with
    | none => simp [add_url_to_category, h3, handle_add_url_result]
    | some e =>
      simp only [add_url_to_category, h3, handle_add_url_result]
      by_cases hc : strContains (str_lower e) ("already exists") = true <;>
        simp [hc]

/-- Witness for C5 at concrete inputs. -/
theorem update_payload_is_append_witness :
    (add_category_to_rule [demo_rule] none ("Sample Rule") ("CAT_B")).2
      = [ApiCall.listRules,
         ApiCall.updateRuleCategories 1 (["CAT_A", "CAT_B"])]
    ∧ (add_url_to_category false (["x.com"]) none ("CAT1") ("z.com")).2
      = [ApiCall.getCategory ("CAT1"),
         ApiCall.updateUrlCategory ("CAT1") (["x.com", "z.com"])] :=
  update_payload_is_append [demo_rule] none ("Sample Rule") ("CAT_B") demo_rule
    (["x.com"]) none ("CAT1") ("z.com") (by decide) (by decide) (by decide)

/-- C7: for every action string whose uppercase form is not one of the
valid actions, `update_rule_action` returns failure with an empty call
trace — no rule fetch and no update is ever issued. -/
theorem invalid_action_rejected_before_network (rules : List Rule)
    (updErr : Option String) (rule_name action : String)
    (h : valid_actions.contains (str_upper action) = false) :
    update_rule_action rules updErr rule_name action = (false, []) := by
  simp only [update_rule_action]
  rw [if_pos h]

/-- Witness for C7 with the unsupported action "DROP". -/
theorem invalid_action_rejected_before_network_witness :
    update_rule_action [demo_rule] none ("Sample Rule") ("DROP")
      = (false, []) :=
  invalid_action_rejected_before_network [demo_rule] none ("Sample Rule")
    ("DROP") (by decide)

/-- C3: for every desired/existing combination with a nonempty difference,
reconciling with dryRun = true yields status dry_run, reports the computed
added list and final_count = existing_count + |added|, and issues zero
write calls. -/
theorem reconcile_dry_run_pure (existing desired : List String)
    (writeOk : Bool) (h : compute_added desired existing ≠ []) :
    reconcile (some existing) desired true writeOk
      = (⟨"dry_run", existing.length, compute_added desired existing,
          existing.length + (compute_added desired existing).length⟩, []) := by
  have hne : (compute_added desired existing).isEmpty = false := by
    cases hc : compute_added desired existing with
    | nil => exact absurd hc h
    | cons a t => rfl
  simp [reconcile, hne]

/-- Witness for C3 at a concrete desired/existing pair. -/
theorem reconcile_dry_run_pure_witness :
    reconcile (some (["a.com"])) (["b.com"]) true false
      = (⟨"dry_run", 1, ["b.com"], 2⟩, []) := by
  have h := reconcile_dry_run_pure (["a.com"]) (["b.com"]) false (by decide)
  exact h.trans (by decide)

/-- C4: a Transport configured with maximum attempts 3 and backoff base 2,
against a transport that always fails, makes exactly 3 attempts, sleeps
2 then 4 seconds between them, and surfaces the failure. -/
theorem transport_retries_three_times (fails : Nat → Bool)
    (h : ∀ k, fails k = true) :
    transport_call fails 2 3 = (false, 3, [2, 4]) := by
  have hf : fails = fun _ => true := funext fun k => h k
  subst hf
  decide

/-- Witness for C4 with the always-failing transport. -/
theorem transport_retries_three_times_witness :
    transport_call (fun _ => true) 2 3 = (false, 3, [2, 4]) :=
  transport_retries_three_times (fun _ => true) (fun _ => rfl)

/-- C6 (counterexample): adding "CAT_B" to `demo_rule` submits an update
holding only `rule_id` and `url_categories`; the carrier's "name" field
(distinct from the list-bearing field) is not present in the submitted
update, so it is not preserved there. -/
theorem update_omits_carrier_fields :
    (add_category_to_rule [demo_rule] none ("Sample Rule") ("CAT_B")).2
      = [ApiCall.listRules,
         ApiCall.updateRuleCategories 1 (["CAT_A", "CAT_B"])]
    ∧ ("name", FieldVal.strVal ("Sample Rule")) ∈ carrier_fields demo_rule
    ∧ ("name" : String) ≠ "urlCategories"
    ∧ ("name", FieldVal.strVal ("Sample Rule"))
        ∉ submitted_update_fields 1 (["CAT_A", "CAT_B"]) := by
  decide

/-- C6 (amended): every category-list update — whether issued by
`add_category_to_rule` (line 333) or by `_add_category_to_rule`
(line 552, the `block_url_in_rule` path) — submits exactly two fields,
`rule_id` and `url_categories`: the id of the fetched rule and its list
with the new category appended; no other field of the fetched carrier is
included in the submitted update. -/
theorem update_submits_only_two_fields (rules : List Rule)
    (updErr : Option String) (rule_name category_id : String)
    (rid : Nat) (cs : List String)
    (h : ApiCall.updateRuleCategories rid cs
          ∈ (add_category_to_rule rules updErr rule_name category_id).2
       ∨ ApiCall.updateRuleCategories rid cs
          ∈ (add_category_to_rule_internal rules updErr rule_name category_id).2) :
    (submitted_update_fields rid cs).map Prod.fst
      = ["rule_id", "url_categories"]
    ∧ ∃ rule, get_rule_by_name rules rule_name = some rule
        ∧ rid = rule.id ∧ cs = rule.urlCategories ++ [category_id] := by
  refine ⟨rfl, ?_⟩
  rcases h with h | h
  · revert h
    unfold add_category_to_rule
    cases hg : get_rule_by_name rules rule_name with
    | none => intro h; simp at h
    | some rule =>
      by_cases hc : category_id ∈ rule.urlCategories
      · intro h; simp [hc] at h
      · cases updErr with
        | some e =>
          intro h
          simp [hc] at h
          exact ⟨rule, rfl, h.1, h.2⟩
        | none =>
          intro h
          simp [hc] at h
          exact ⟨rule, rfl, h.1, h.2⟩
  · revert h
    unfold add_category_to_rule_internal
    cases hg : get_rule_by_name rules rule_name with
    | none => intro h; simp at h
    | some rule =>
      by_cases hc : category_id ∈ rule.urlCategories
      · intro h; simp [hc] at h
      · cases updErr with
        | some e =>
          intro h
          simp [hc] at h
          exact ⟨rule, rfl, h.1, h.2⟩
        | none =>
          intro h
          simp [hc] at h
          exact ⟨rule, rfl, h.1, h.2⟩

/-- Witness for the amended C6, reaching the update through the
`_add_category_to_rule` (`block_url_in_rule`) path at a concrete input. -/
theorem update_submits_only_two_fields_witness :
    (submitted_update_fields 1 (["CAT_A", "CAT_B"])).map Prod.fst
      = ["rule_id", "url_categories"]
    ∧ ∃ rule, get_rule_by_name [demo_rule] ("Sample Rule") = some rule
        ∧ 1 = rule.id
        ∧ ["CAT_A", "CAT_B"] = rule.urlCategories ++ ["CAT_B"] :=
  update_submits_only_two_fields [demo_rule] none ("Sample Rule") ("CAT_B")
    1 (["CAT_A", "CAT_B"]) (Or.inr (by decide))

/-- C8: a remote list payload that is missing or empty is treated as an
empty category list, and `_get_or_create_block_category` does not fail on
it: it proceeds to the create call and succeeds when creation succeeds. -/
theorem unusable_payload_empty_list (lr : SdkListResult Category)
    (name : String) (c : Category) (h : unusable_list lr) :
    extract_categories lr = []
    ∧ get_or_create_block_category lr (SdkItemResult.direct (some c)) name
        = (some c.id, [ApiCall.listCategories, ApiCall.addUrlCategory name]) := by
  have he : extract_categories lr = [] := by
    cases lr with
    | tup data err => rcases h with h | h <;> simp [extract_categories, h]
    | direct data => rcases h with h | h <;> simp [extract_categories, h]
  refine ⟨he, ?_⟩
  simp [get_or_create_block_category, he, List.find?]

/-- A concrete category used to instantiate theorems. -/
def demo_category : Category :=
  { id := "128", configuredName := "Blocked_URLs_Automation",
    customCategory := true }

/-- Witness for C8 with a missing (`None`) payload. -/
theorem unusable_payload_empty_list_witness :
    extract_categories (SdkListResult.tup (none : Option (List Category)) none)
      = []
    ∧ get_or_create_block_category
        (SdkListResult.tup (none : Option (List Category)) none)
        (SdkItemResult.direct (some demo_category))
        ("Blocked_URLs_Automation")
      = (some ("128"),
         [ApiCall.listCategories,
          ApiCall.addUrlCategory ("Blocked_URLs_Automation")]) :=
  unusable_payload_empty_list
    (SdkListResult.tup (none : Option (List Category)) none)
    ("Blocked_URLs_Automation") demo_category (Or.inl rfl)

/-- C9: for every error response whose message contains "already exists"
after lowercasing, adding a URL to a category is treated as success. -/
theorem already_exists_treated_as_success (method1_ok : Bool)
    (current_urls : List String) (category_id url e : String)
    (h : strContains (str_lower e) ("already exists") = true) :
    (add_url_to_category method1_ok current_urls (some e) category_id url).1
      = true := by
  cases method1_ok with
  | true => simp [add_url_to_category, handle_add_url_result, h]
  | false =>
    by_cases hm : url ∈ current_urls <;>
      simp [add_url_to_category, hm, handle_add_url_result, h]

/-- Witness for C9 with a mixed-case "already exists" error message. -/
theorem already_exists_treated_as_success_witness :
    (add_url_to_category true [] (some ("URL Already EXISTS in category"))
        ("CAT1") ("x.com")).1 = true :=
  already_exists_treated_as_success true [] ("CAT1") ("x.com")
    ("URL Already EXISTS in category") (by decide)

/-- C10: `get_rule_by_name` returns `none` exactly when no rule's name or
stringified id equals the identifier, and otherwise returns the first
matching rule in listing order. -/
theorem get_rule_by_name_correct (rules : List Rule) (ident : String) :
    (get_rule_by_name rules ident = none ↔
      ∀ r ∈ rules, r.name ≠ ident ∧ toString r.id ≠ ident)
    ∧ ∀ r, get_rule_by_name rules ident = some r →
        (r.name = ident ∨ toString r.id = ident)
        ∧ ∃ l1 l2, rules = l1 ++ r :: l2
            ∧ ∀ x ∈ l1, x.name ≠ ident ∧ toString x.id ≠ ident := by
  constructor
  · rw [get_rule_by_name, List.find?_eq_none]
    constructor
    · intro h r hr
      have hp := h r hr
      simpa [not_or] using hp
    · intro h r hr
      have hp := h r hr
      simp [hp.1, hp.2]
  · intro r h
    obtain ⟨hp, l1, l2, heq, hall⟩ := find_first _ rules r h
    refine ⟨by simpa using hp, l1, l2, heq, ?_⟩
    intro x hx
    have hf := hall x hx
    simpa [not_or] using hf

/-- Witness for C10: no rule in the demo listing matches "zzz". -/
theorem get_rule_by_name_correct_witness :
    get_rule_by_name [demo_rule] ("zzz") = none :=
  (get_rule_by_name_correct [demo_rule] ("zzz")).1.mpr (by decide)
